import Mathlib

/-!
Verification development for the back40computing tuning and scheduling
framework. We give a shallow embedding of:

- the BFS compact-expand KernelConfig metatype and its derived constants
  (src/branches/MultiGPU/b40c/graph/bfs/compact_expand_atomic/kernel_config.cuh),
- the tuned memcopy enactor dispatch and its byte accounting
  (src/trunk/Memcopy/memcopy_api_enactor_tuned.cuh),
- the two-channel SOA scan operator of the same KernelConfig,
- the work distribution (Plan) and the atomic output-range reservation,
  which are called from the sources but whose own code is not among the
  provided files; these are modelled from the specification, as marked.

Machine integers are modelled as Nat where every quantity involved is
non-negative in the source (resource counts, sizes, log2 parameters) and
realistic parameterizations stay far below the int range. Where narrowing
matters they are modelled exactly: the int intermediates of the memcopy
byte accounting wrap through toInt32 (reduction modulo 2^32 into the
signed range) and size_t arithmetic is carried modulo 2^64; the signed
warp-count shift exponent LOG_WARPS is modelled as Int.
-/

namespace B40C

/-- Resource limits of a target accelerator. In the source these are the
per-architecture macros B40C_LOG_WARP_THREADS, B40C_SM_THREADS, B40C_SM_CTAS
and B40C_SMEM_BYTES from b40c/util/cuda_properties.cuh, a file not among the
provided sources; we model them as parameters, which makes every theorem
below hold for all architecture tables. -/
structure ArchProps where
  logWarpThreads : Nat
  smThreads : Nat
  smCtas : Nat
  smemBytes : Nat
deriving DecidableEq, Repr

/-- Modelled from the spec: the utility macro B40C_MIN from
b40c/util/basic_utils.cuh (not among the provided sources), the usual
conditional minimum ((a) < (b)) ? (a) : (b). -/
def B40C_MIN (a b : Nat) : Nat := if a < b then a else b

/-- Byte size of the uint4 vector type: four 32-bit words. -/
def sizeofUint4 : Nat := 16

/-- Modelled from the spec: the utility macro B40C_QUADS from
b40c/util/cuda_properties.cuh (not among the provided sources), which
rounds a byte count up to whole uint4 quads; the spec describes the
per-block local-memory footprint as the struct size rounded to the
allocation granularity. -/
def B40C_QUADS (bytes : Nat) : Nat := (bytes + sizeofUint4 - 1) / sizeofUint4

/-- Tunable template parameters of the BFS compact-expand KernelConfig
(kernel_config.cuh lines 52-71). The cache-modifier parameters are carried
by the source type but do not enter any derived arithmetic constant, so
they are omitted here. -/
structure KernelConfigParams where
  MAX_CTA_OCCUPANCY : Nat
  LOG_THREADS : Nat
  LOG_LOAD_VEC_SIZE : Nat
  LOG_LOADS_PER_TILE : Nat
  LOG_RAKING_THREADS : Nat
  WORK_STEALING : Bool
  LOG_SCHEDULE_GRANULARITY : Nat
deriving DecidableEq, Repr

namespace KernelConfig

/-- THREADS = 1 << LOG_THREADS (kernel_config.cuh line 89). -/
def THREADS (p : KernelConfigParams) : Nat := 1 <<< p.LOG_THREADS

/-- LOAD_VEC_SIZE = 1 << LOG_LOAD_VEC_SIZE (line 92). -/
def LOAD_VEC_SIZE (p : KernelConfigParams) : Nat := 1 <<< p.LOG_LOAD_VEC_SIZE

/-- LOADS_PER_TILE = 1 << LOG_LOADS_PER_TILE (line 95). -/
def LOADS_PER_TILE (p : KernelConfigParams) : Nat := 1 <<< p.LOG_LOADS_PER_TILE

/-- LOG_LOAD_STRIDE = LOG_THREADS + LOG_LOAD_VEC_SIZE (line 97). -/
def LOG_LOAD_STRIDE (p : KernelConfigParams) : Nat :=
  p.LOG_THREADS + p.LOG_LOAD_VEC_SIZE

/-- LOAD_STRIDE = 1 << LOG_LOAD_STRIDE (line 98). -/
def LOAD_STRIDE (p : KernelConfigParams) : Nat := 1 <<< LOG_LOAD_STRIDE p

/-- RAKING_THREADS = 1 << LOG_RAKING_THREADS (line 101). -/
def RAKING_THREADS (p : KernelConfigParams) : Nat := 1 <<< p.LOG_RAKING_THREADS

/-- LOG_WARPS = LOG_THREADS - B40C_LOG_WARP_THREADS(CUDA_ARCH) (line 103).
The subtraction is over int in the source, so the value can be negative;
we model it over Int. -/
def LOG_WARPS (arch : ArchProps) (p : KernelConfigParams) : Int :=
  (p.LOG_THREADS : Int) - (arch.logWarpThreads : Int)

/-- WARPS = 1 << LOG_WARPS (line 104). A shift by a negative amount is
undefined in C++, so the result is modelled as an Option that is none
exactly when the shift exponent is negative. -/
def WARPS (arch : ArchProps) (p : KernelConfigParams) : Option Nat :=
  if 0 ≤ LOG_WARPS arch p then some (1 <<< (LOG_WARPS arch p).toNat) else none

/-- LOG_TILE_ELEMENTS_PER_THREAD = LOG_LOAD_VEC_SIZE + LOG_LOADS_PER_TILE
(line 106). -/
def LOG_TILE_ELEMENTS_PER_THREAD (p : KernelConfigParams) : Nat :=
  p.LOG_LOAD_VEC_SIZE + p.LOG_LOADS_PER_TILE

/-- TILE_ELEMENTS_PER_THREAD = 1 << LOG_TILE_ELEMENTS_PER_THREAD (line 107). -/
def TILE_ELEMENTS_PER_THREAD (p : KernelConfigParams) : Nat :=
  1 <<< LOG_TILE_ELEMENTS_PER_THREAD p

/-- LOG_TILE_ELEMENTS = LOG_TILE_ELEMENTS_PER_THREAD + LOG_THREADS (line 109). -/
def LOG_TILE_ELEMENTS (p : KernelConfigParams) : Nat :=
  LOG_TILE_ELEMENTS_PER_THREAD p + p.LOG_THREADS

/-- TILE_ELEMENTS = 1 << LOG_TILE_ELEMENTS (line 110). -/
def TILE_ELEMENTS (p : KernelConfigParams) : Nat := 1 <<< LOG_TILE_ELEMENTS p

/-- SCHEDULE_GRANULARITY = 1 << LOG_SCHEDULE_GRANULARITY (line 113). -/
def SCHEDULE_GRANULARITY (p : KernelConfigParams) : Nat :=
  1 <<< p.LOG_SCHEDULE_GRANULARITY

/-- SMEM_QUADS = B40C_QUADS(sizeof(SmemStorage)) (line 230). The byte size
of the SmemStorage struct is determined by the compiler (field layout and
padding of a union of three phase views); it is carried here as the
parameter smemStorageBytes, positive because the struct is nonempty. No
theorem below depends on its exact value. -/
def SMEM_QUADS (smemStorageBytes : Nat) : Nat := B40C_QUADS smemStorageBytes

/-- THREAD_OCCUPANCY = B40C_SM_THREADS(CUDA_ARCH) >> LOG_THREADS (line 232). -/
def THREAD_OCCUPANCY (arch : ArchProps) (p : KernelConfigParams) : Nat :=
  arch.smThreads >>> p.LOG_THREADS

/-- SMEM_OCCUPANCY = B40C_SMEM_BYTES(CUDA_ARCH) / (SMEM_QUADS * sizeof(uint4))
(line 233). -/
def SMEM_OCCUPANCY (arch : ArchProps) (smemStorageBytes : Nat) : Nat :=
  arch.smemBytes / (SMEM_QUADS smemStorageBytes * sizeofUint4)

/-- CTA_OCCUPANCY = B40C_MIN(_MAX_CTA_OCCUPANCY, B40C_MIN(B40C_SM_CTAS,
B40C_MIN(THREAD_OCCUPANCY, SMEM_OCCUPANCY))) (line 234). -/
def CTA_OCCUPANCY (arch : ArchProps) (p : KernelConfigParams)
    (smemStorageBytes : Nat) : Nat :=
  B40C_MIN p.MAX_CTA_OCCUPANCY
    (B40C_MIN arch.smCtas
      (B40C_MIN (THREAD_OCCUPANCY arch p) (SMEM_OCCUPANCY arch smemStorageBytes)))

/-- VALID = (CTA_OCCUPANCY > 0) (line 236). -/
def VALID (arch : ArchProps) (p : KernelConfigParams)
    (smemStorageBytes : Nat) : Bool :=
  decide (CTA_OCCUPANCY arch p smemStorageBytes > 0)

end KernelConfig

/-! ## Tuned memcopy enactor (src/trunk/Memcopy/memcopy_api_enactor_tuned.cuh) -/

/-- Enumeration of the predefined, tuned granularity configurations
(memcopy_api_enactor_tuned.cuh lines 45-49). -/
inductive TunedGranularityEnum
  | SMALL_PROBLEM
  | LARGE_PROBLEM
deriving DecidableEq, Repr

/-- Size threshold of the hybrid dispatch in MemcopyEnactorTuned::Enact
(line 237): 1024 * 2252 bytes. -/
def MEMCOPY_HYBRID_THRESHOLD : Nat := 1024 * 2252

/-- Granularity selection performed by the untemplated
MemcopyEnactorTuned::Enact (lines 230-242): LARGE_PROBLEM when
num_bytes > 1024 * 2252, SMALL_PROBLEM otherwise. -/
def enactSelect (num_bytes : Nat) : TunedGranularityEnum :=
  if num_bytes > 1024 * 2252 then TunedGranularityEnum.LARGE_PROBLEM
  else TunedGranularityEnum.SMALL_PROBLEM

/-- Conversion of an unsigned 64-bit value to the 32-bit signed int type
of the enactor intermediates: the value is reduced modulo 2^32 and
re-centred into the signed range, the conversion C++ compilers perform on
a narrowing size_t-to-int assignment. -/
def toInt32 (v : Nat) : Int :=
  if v % 2 ^ 32 < 2 ^ 31 then ((v % 2 ^ 32 : Nat) : Int)
  else ((v % 2 ^ 32 : Nat) : Int) - 2 ^ 32

/-- Conversion of a signed value to the unsigned 64-bit size_t type,
reducing modulo 2^64 (the defined unsigned conversion of C++). -/
def toSizeT (v : Int) : Nat := (v % (2 ^ 64 : Int)).toNat

/-- int num_elements = storage.num_bytes / sizeof(T), from the dispatch
call-back Enact (line 161): the size_t quotient is narrowed to int, which
wraps once num_bytes / sizeof(T) reaches 2^31. -/
def enactNumElements (num_bytes sizeofT : Nat) : Int :=
  toInt32 (num_bytes / sizeofT)

/-- int extra_bytes = storage.num_bytes - (num_elements * sizeof(T))
(line 162): num_elements is converted back to size_t, the product and the
subtraction are carried out modulo 2^64 in size_t, and the result is
narrowed to int. -/
def enactExtraBytes (num_bytes sizeofT : Nat) : Int :=
  toInt32 ((num_bytes % 2 ^ 64 +
    (2 ^ 64 - toSizeT (enactNumElements num_bytes sizeofT) * sizeofT % 2 ^ 64)) % 2 ^ 64)

/-- Modelled from the spec: the tuned per-architecture configuration tables
large_problem_tuning::TunedConfig and small_problem_tuning::TunedConfig
(memcopy_granularity_tuned_large.cuh and memcopy_granularity_tuned_small.cuh,
not among the provided sources). Per the spec, a precomputed configuration
is a compile-time record whose derived occupancy is its CTA_OCCUPANCY
constant; TunedGranularity (enactor file lines 252-281) re-exports THREADS
and OCCUPANCY from it. -/
structure TunedConfig where
  LOG_THREADS : Nat
  CTA_OCCUPANCY : Nat
deriving DecidableEq, Repr

/-- Dispatch of the untemplated Enact: the configuration actually used is
the one named by enactSelect, taken from the closed two-element set of
precompiled configurations. -/
def tunedDispatch (small large : TunedConfig) (num_bytes : Nat) : TunedConfig :=
  match enactSelect num_bytes with
  | TunedGranularityEnum.SMALL_PROBLEM => small
  | TunedGranularityEnum.LARGE_PROBLEM => large

/-! ## Two-channel SOA scan operator (kernel_config.cuh lines 140-159) -/

/-- Tuple of the two scan channels, util::Tuple<SizeT, SizeT> (line 141):
slot t0 carries the coarse channel, slot t1 the fine channel. -/
structure SoaTuple where
  t0 : Nat
  t1 : Nat
deriving DecidableEq, Repr

/-- SoaScanOp(first, second) = SoaTuple(first.t0 + second.t0,
first.t1 + second.t1) (lines 146-151). -/
def SoaScanOp (first second : SoaTuple) : SoaTuple :=
  SoaTuple.mk (first.t0 + second.t0) (first.t1 + second.t1)

/-- SoaTupleIdentity() = SoaTuple(0, 0) (lines 156-159). -/
def SoaTupleIdentity : SoaTuple := SoaTuple.mk 0 0

/-! ## Atomic output-range reservation -/

/-- Modelled from the spec: ReserveGlobalOffset (the enqueue code of the
compact-expand CTA, not among the provided sources; kernel_config.cuh only
declares the broadcast slots fine_enqueue_offset and coarse_enqueue_offset).
Per the spec, one elected thread per block performs a single atomic
fetch-and-add of the tile total of its channel onto the global output
cursor of that channel. Atomicity linearizes the updates, so an
interleaving of the blocks is a serialization order, given here as the
list of block identifiers in the order their fetch-and-adds take effect.
reserveRun returns, in that order, each block paired with the base offset
its fetch-and-add returned; counts gives each block its tile total. -/
def reserveRun (counts : Nat → Nat) : List Nat → Nat → List (Nat × Nat)
  | [], _ => []
  | b :: rest, ctr => (b, ctr) :: reserveRun counts rest (ctr + counts b)

/-! ## Work distribution (Plan) -/

/-- Modelled from the spec: the WorkRange record of the work distribution.
The CtaWorkDistribution type and its GetCtaWorkLimits method live in
b40c/util/cta_work_distribution.cuh, which is not among the provided
sources (only its call site in the radix-sort downsweep kernel is). A
range is one exclusive slice of the input for one block; guarded marks the
block holding the tail. -/
structure WorkRange where
  offset : Nat
  length : Nat
  guarded : Bool
deriving DecidableEq, Repr

/-- Modelled from the spec: the total number of schedule-granularity units,
the length of the input rounded up to whole units. -/
def totalUnits (total g : Nat) : Nat := (total + g - 1) / g

/-- Modelled from the spec: the number of units assigned to block i; units
are distributed as evenly as possible, the surplus units going to the
lowest-indexed blocks. -/
def unitsPerBlock (total grid g i : Nat) : Nat :=
  totalUnits total g / grid + (if i < totalUnits total g % grid then 1 else 0)

/-- Modelled from the spec: the number of units assigned to the blocks
preceding block i (the running sum of unitsPerBlock). -/
def unitsBefore (total grid g i : Nat) : Nat :=
  i * (totalUnits total g / grid) + min i (totalUnits total g % grid)

/-- Modelled from the spec: the element boundary at which the range of
block i starts, clipped to the end of the input (the raw boundary of the
last unit can overshoot the input when the input is not a whole number of
units, and blocks past the tail receive empty ranges). -/
def blockEdge (total grid g i : Nat) : Nat :=
  min (unitsBefore total grid g i * g) total

/-- Modelled from the spec: the WorkRange of block i. The block holding
the tail is the first block whose raw unit boundary reaches the end of the
input; it alone is marked guarded. -/
def planRange (total grid g i : Nat) : WorkRange :=
  { offset := blockEdge total grid g i
    length := blockEdge total grid g (i + 1) - blockEdge total grid g i
    guarded := decide (total ≤ unitsBefore total grid g (i + 1) * g ∧
      (i = 0 ∨ unitsBefore total grid g i * g < total)) }

/-- Modelled from the spec: Plan(total_elements, grid_size, granularity)
returns the per-block WorkRanges for blocks 0 .. grid_size - 1. -/
def Plan (total grid g : Nat) : List WorkRange :=
  (List.range grid).map (planRange total grid g)

/-! ## Example instantiations used as concrete witnesses -/

/-- Resource limits of a Fermi-class accelerator (the SM20 column of the
per-architecture tables): 32-thread warps, 1536 resident threads, 8
resident blocks, 48 KB of local memory per multiprocessor. -/
def archSM20 : ArchProps :=
  { logWarpThreads := 5, smThreads := 1536, smCtas := 8, smemBytes := 49152 }

/-- Representative tunable parameterization: 128 threads, 2-element tiles
per thread, 32 raking threads, 256-element schedule granularity. -/
def exampleParams : KernelConfigParams :=
  { MAX_CTA_OCCUPANCY := 8, LOG_THREADS := 7, LOG_LOAD_VEC_SIZE := 0,
    LOG_LOADS_PER_TILE := 1, LOG_RAKING_THREADS := 5, WORK_STEALING := false,
    LOG_SCHEDULE_GRANULARITY := 8 }

/-- Parameterization with fewer threads (4) than one 32-thread lockstep
subgroup, exercising the negative warp-count shift of claim C10. -/
def subwarpParams : KernelConfigParams :=
  { MAX_CTA_OCCUPANCY := 8, LOG_THREADS := 2, LOG_LOAD_VEC_SIZE := 0,
    LOG_LOADS_PER_TILE := 1, LOG_RAKING_THREADS := 2, WORK_STEALING := false,
    LOG_SCHEDULE_GRANULARITY := 8 }

/-! ## Shared helper lemmas -/

lemma b40cMin_eq_min (a b : Nat) : B40C_MIN a b = min a b := by
  unfold B40C_MIN; split <;> omega

lemma cta_occupancy_eq_min (arch : ArchProps) (p : KernelConfigParams)
    (s : Nat) :
    KernelConfig.CTA_OCCUPANCY arch p s =
      min p.MAX_CTA_OCCUPANCY (min arch.smCtas
        (min (KernelConfig.THREAD_OCCUPANCY arch p)
          (KernelConfig.SMEM_OCCUPANCY arch s))) := by
  unfold KernelConfig.CTA_OCCUPANCY
  rw [b40cMin_eq_min, b40cMin_eq_min, b40cMin_eq_min]

lemma thread_occupancy_eq_div (arch : ArchProps) (p : KernelConfigParams) :
    KernelConfig.THREAD_OCCUPANCY arch p = arch.smThreads / KernelConfig.THREADS p := by
  unfold KernelConfig.THREAD_OCCUPANCY KernelConfig.THREADS
  rw [Nat.shiftRight_eq_div_pow, Nat.one_shiftLeft]

/-! ## Claim theorems: KernelConfig derived constants -/

/-- C7: every derived size of KernelConfig is the power of two named by its
log2 tunable — THREADS = 2 ^ LOG_THREADS, LOAD_VEC_SIZE = 2 ^
LOG_LOAD_VEC_SIZE, LOADS_PER_TILE = 2 ^ LOG_LOADS_PER_TILE, RAKING_THREADS
= 2 ^ LOG_RAKING_THREADS, SCHEDULE_GRANULARITY = 2 ^
LOG_SCHEDULE_GRANULARITY — and the tile size satisfies TILE_ELEMENTS =
THREADS * LOAD_VEC_SIZE * LOADS_PER_TILE. -/
theorem kernel_config_log2_arithmetic (p : KernelConfigParams) :
    KernelConfig.THREADS p = 2 ^ p.LOG_THREADS ∧
    KernelConfig.LOAD_VEC_SIZE p = 2 ^ p.LOG_LOAD_VEC_SIZE ∧
    KernelConfig.LOADS_PER_TILE p = 2 ^ p.LOG_LOADS_PER_TILE ∧
    KernelConfig.RAKING_THREADS p = 2 ^ p.LOG_RAKING_THREADS ∧
    KernelConfig.SCHEDULE_GRANULARITY p = 2 ^ p.LOG_SCHEDULE_GRANULARITY ∧
    KernelConfig.TILE_ELEMENTS p =
      KernelConfig.THREADS p * KernelConfig.LOAD_VEC_SIZE p *
        KernelConfig.LOADS_PER_TILE p := by
  refine ⟨Nat.one_shiftLeft _, Nat.one_shiftLeft _, Nat.one_shiftLeft _,
    Nat.one_shiftLeft _, Nat.one_shiftLeft _, ?_⟩
  unfold KernelConfig.TILE_ELEMENTS KernelConfig.LOG_TILE_ELEMENTS
    KernelConfig.LOG_TILE_ELEMENTS_PER_THREAD KernelConfig.THREADS
    KernelConfig.LOAD_VEC_SIZE KernelConfig.LOADS_PER_TILE
  rw [Nat.one_shiftLeft, Nat.one_shiftLeft, Nat.one_shiftLeft,
    Nat.one_shiftLeft, pow_add, pow_add]
  ring

/-- C2: the derived occupancy CTA_OCCUPANCY is the minimum of the declared
maximum occupancy, the accelerator bound on concurrent blocks per
multiprocessor, the thread capacity divided by the threads per block, and
the local-memory capacity divided by the per-block footprint in bytes; and
VALID holds exactly when that occupancy is positive. -/
theorem cta_occupancy_min_and_valid (arch : ArchProps) (p : KernelConfigParams)
    (s : Nat) :
    KernelConfig.CTA_OCCUPANCY arch p s =
      min p.MAX_CTA_OCCUPANCY (min arch.smCtas
        (min (arch.smThreads / KernelConfig.THREADS p)
          (arch.smemBytes / (KernelConfig.SMEM_QUADS s * sizeofUint4)))) ∧
    (KernelConfig.VALID arch p s = true ↔
      0 < KernelConfig.CTA_OCCUPANCY arch p s) := by
  constructor
  · rw [cta_occupancy_eq_min, thread_occupancy_eq_div]
    rfl
  · unfold KernelConfig.VALID
    simp

/-- C5: for every parameterization with VALID, the footprints of
CTA_OCCUPANCY concurrent blocks simultaneously fit the local-memory
capacity — CTA_OCCUPANCY * (SMEM_QUADS * sizeof(uint4)) ≤ B40C_SMEM_BYTES
— and the SmemStorage pool (the union of the three phase views, of
smemStorageBytes bytes) lies inside the SMEM_QUADS quads charged for it,
so a capacity violation is impossible by construction. -/
theorem smem_capacity_by_construction (arch : ArchProps)
    (p : KernelConfigParams) (s : Nat) (hs : 1 ≤ s)
    (hv : KernelConfig.VALID arch p s = true) :
    KernelConfig.CTA_OCCUPANCY arch p s *
        (KernelConfig.SMEM_QUADS s * sizeofUint4) ≤ arch.smemBytes ∧
    s ≤ KernelConfig.SMEM_QUADS s * sizeofUint4 := by
  constructor
  · have h1 : KernelConfig.CTA_OCCUPANCY arch p s ≤
        KernelConfig.SMEM_OCCUPANCY arch s := by
      rw [cta_occupancy_eq_min]
      exact (min_le_right _ _).trans ((min_le_right _ _).trans (min_le_right _ _))
    have h2 : KernelConfig.CTA_OCCUPANCY arch p s *
        (KernelConfig.SMEM_QUADS s * sizeofUint4) ≤
        KernelConfig.SMEM_OCCUPANCY arch s *
          (KernelConfig.SMEM_QUADS s * sizeofUint4) :=
      Nat.mul_le_mul_right _ h1
    refine h2.trans ?_
    unfold KernelConfig.SMEM_OCCUPANCY
    exact Nat.div_mul_le_self _ _
  · unfold KernelConfig.SMEM_QUADS B40C_QUADS sizeofUint4
    omega

/-- Witness for C5 at the Fermi-class limits, the representative
parameterization and a 1000-byte SmemStorage struct. -/
theorem smem_capacity_by_construction_witness :
    KernelConfig.CTA_OCCUPANCY archSM20 exampleParams 1000 *
        (KernelConfig.SMEM_QUADS 1000 * sizeofUint4) ≤ archSM20.smemBytes ∧
    1000 ≤ KernelConfig.SMEM_QUADS 1000 * sizeofUint4 :=
  smem_capacity_by_construction archSM20 exampleParams 1000 (by decide)
    (by decide)

/-- C10: the warp-count shift LOG_WARPS = LOG_THREADS -
B40C_LOG_WARP_THREADS is negative for every parameterization with fewer
threads than one lockstep subgroup, making WARPS = 1 << LOG_WARPS
ill-defined there; and no check rejects such a parameterization — in
particular VALID still holds at a concrete sub-warp parameterization. -/
theorem warps_shift_unchecked :
    (∀ (arch : ArchProps) (p : KernelConfigParams),
      p.LOG_THREADS < arch.logWarpThreads →
        KernelConfig.LOG_WARPS arch p < 0 ∧ KernelConfig.WARPS arch p = none) ∧
    subwarpParams.LOG_THREADS < archSM20.logWarpThreads ∧
    KernelConfig.VALID archSM20 subwarpParams 1000 = true := by
  refine ⟨?_, by decide, by decide⟩
  intro arch p h
  have hneg : KernelConfig.LOG_WARPS arch p < 0 := by
    unfold KernelConfig.LOG_WARPS; omega
  refine ⟨hneg, ?_⟩
  unfold KernelConfig.WARPS
  rw [if_neg (by omega)]

/-- Witness for C10: the sub-warp parameterization at the Fermi-class
limits has a negative shift and an undefined warp count. -/
theorem warps_shift_unchecked_witness :
    KernelConfig.LOG_WARPS archSM20 subwarpParams < 0 ∧
    KernelConfig.WARPS archSM20 subwarpParams = none :=
  warps_shift_unchecked.1 archSM20 subwarpParams (by decide)

/-! ## Claim theorems: tuned memcopy enactor -/

/-- C6: the untemplated MemcopyEnactorTuned::Enact selects between exactly
two precompiled configurations by the single fixed threshold 1024 * 2252
bytes — LARGE_PROBLEM exactly when num_bytes exceeds the threshold, and
SMALL_PROBLEM otherwise, including at the threshold itself. -/
theorem enact_hybrid_threshold (num_bytes : Nat) :
    (enactSelect num_bytes = TunedGranularityEnum.LARGE_PROBLEM ↔
      MEMCOPY_HYBRID_THRESHOLD < num_bytes) ∧
    (enactSelect num_bytes = TunedGranularityEnum.SMALL_PROBLEM ↔
      num_bytes ≤ MEMCOPY_HYBRID_THRESHOLD) ∧
    enactSelect MEMCOPY_HYBRID_THRESHOLD = TunedGranularityEnum.SMALL_PROBLEM := by
  refine ⟨?_, ?_, by decide⟩ <;>
    · unfold enactSelect MEMCOPY_HYBRID_THRESHOLD
      split <;> simp <;> omega

/-- Counterexample for C9 as stated: at num_bytes = 2^34 with an 8-byte
element type, the size_t quotient 2^31 narrows to the int value -2^31, so
the element-wise accounting identity fails — the claim does not hold for
every num_bytes. -/
theorem enact_byte_accounting_counterexample :
    ¬ (enactNumElements 17179869184 8 * 8 + enactExtraBytes 17179869184 8 =
        (17179869184 : Int) ∧
      0 ≤ enactExtraBytes 17179869184 8 ∧
      enactExtraBytes 17179869184 8 < 8) := by
  decide

/-- C9 (amended): the byte accounting of the dispatch call-back Enact
covers every requested byte exactly once — num_elements * sizeof(T) +
extra_bytes = num_bytes with 0 ≤ extra_bytes < sizeof(T), including
num_bytes not a multiple of sizeof(T) — for every num_bytes within size_t
whose element count num_bytes / sizeof(T) stays below 2^31 (so the
narrowing to the int intermediates does not wrap) and every element type
size up to 2^31. -/
theorem enact_byte_accounting_amended (num_bytes sizeofT : Nat)
    (hT : 0 < sizeofT) (hTbound : sizeofT ≤ 2 ^ 31)
    (hnb : num_bytes < 2 ^ 64) (hq : num_bytes / sizeofT < 2 ^ 31) :
    enactNumElements num_bytes sizeofT * (sizeofT : Int) +
        enactExtraBytes num_bytes sizeofT = (num_bytes : Int) ∧
    0 ≤ enactExtraBytes num_bytes sizeofT ∧
    enactExtraBytes num_bytes sizeofT < (sizeofT : Int) := by
  have hq32 : num_bytes / sizeofT < 2 ^ 32 :=
    lt_trans hq (by norm_num)
  have hne : enactNumElements num_bytes sizeofT =
      ((num_bytes / sizeofT : Nat) : Int) := by
    unfold enactNumElements toInt32
    rw [Nat.mod_eq_of_lt hq32, if_pos hq]
  have hcast_lt : ((num_bytes / sizeofT : Nat) : Int) < 2 ^ 64 := by
    exact_mod_cast lt_trans hq32 (by norm_num : (2 : Nat) ^ 32 < 2 ^ 64)
  have htos : toSizeT (enactNumElements num_bytes sizeofT) =
      num_bytes / sizeofT := by
    rw [hne]
    unfold toSizeT
    rw [Int.emod_eq_of_lt (Int.natCast_nonneg _) hcast_lt]
    exact Int.toNat_natCast _
  have hqs : (num_bytes / sizeofT) * sizeofT ≤ num_bytes :=
    Nat.div_mul_le_self _ _
  have hmod64 : (num_bytes / sizeofT) * sizeofT % 2 ^ 64 =
      (num_bytes / sizeofT) * sizeofT := Nat.mod_eq_of_lt (by omega)
  have hnbmod : num_bytes % 2 ^ 64 = num_bytes := Nat.mod_eq_of_lt hnb
  have hdm : (num_bytes / sizeofT) * sizeofT + num_bytes % sizeofT =
      num_bytes := by
    rw [Nat.mul_comm]; exact Nat.div_add_mod num_bytes sizeofT
  have hrlt : num_bytes % sizeofT < sizeofT := Nat.mod_lt _ hT
  have hr31 : num_bytes % sizeofT < 2 ^ 31 := lt_of_lt_of_le hrlt hTbound
  have hr32 : num_bytes % sizeofT < 2 ^ 32 := lt_trans hr31 (by norm_num)
  have hinner : (num_bytes % 2 ^ 64 +
      (2 ^ 64 - toSizeT (enactNumElements num_bytes sizeofT) * sizeofT % 2 ^ 64)) %
        2 ^ 64 = num_bytes % sizeofT := by
    rw [htos, hmod64, hnbmod]
    have h1 : num_bytes + (2 ^ 64 - (num_bytes / sizeofT) * sizeofT) =
        2 ^ 64 + num_bytes % sizeofT := by omega
    rw [h1, Nat.add_mod_left]
    exact Nat.mod_eq_of_lt (by omega)
  have hee : enactExtraBytes num_bytes sizeofT =
      ((num_bytes % sizeofT : Nat) : Int) := by
    unfold enactExtraBytes toInt32
    rw [hinner, Nat.mod_eq_of_lt hr32, if_pos hr31]
  refine ⟨?_, ?_, ?_⟩
  · rw [hne, hee]
    exact_mod_cast hdm
  · rw [hee]; exact Int.natCast_nonneg _
  · rw [hee]; exact_mod_cast hrlt

/-- Witness for amended C9: copying 10 bytes with a 4-byte element type
gives 2 whole elements plus a 2-byte tail. -/
theorem enact_byte_accounting_amended_witness :
    enactNumElements 10 4 * (4 : Int) + enactExtraBytes 10 4 = (10 : Int) ∧
    0 ≤ enactExtraBytes 10 4 ∧ enactExtraBytes 10 4 < (4 : Int) :=
  enact_byte_accounting_amended 10 4 (by decide) (by norm_num)
    (by norm_num) (by norm_num)

/-- C3: when the two precompiled configurations of the dispatcher have
positive derived occupancy (the spec ships only valid precomputed
configurations), the configuration the dispatcher uses for any num_bytes
has positive occupancy, and it is always one of the two precompiled
configurations — a configuration with occupancy 0 is never selected. -/
theorem tuned_dispatch_never_invalid (small large : TunedConfig)
    (hsmall : 0 < small.CTA_OCCUPANCY) (hlarge : 0 < large.CTA_OCCUPANCY) :
    ∀ num_bytes : Nat,
      0 < (tunedDispatch small large num_bytes).CTA_OCCUPANCY ∧
      (tunedDispatch small large num_bytes = small ∨
        tunedDispatch small large num_bytes = large) := by
  intro num_bytes
  unfold tunedDispatch
  cases h : enactSelect num_bytes <;> simp [hsmall, hlarge]

/-- Witness for C3: with a small configuration of occupancy 2 and a large
one of occupancy 4, a 3-megabyte problem is dispatched to a configuration
of positive occupancy. -/
theorem tuned_dispatch_never_invalid_witness :
    0 < (tunedDispatch (TunedConfig.mk 8 2) (TunedConfig.mk 7 4)
        3000000).CTA_OCCUPANCY ∧
    (tunedDispatch (TunedConfig.mk 8 2) (TunedConfig.mk 7 4) 3000000 =
        TunedConfig.mk 8 2 ∨
      tunedDispatch (TunedConfig.mk 8 2) (TunedConfig.mk 7 4) 3000000 =
        TunedConfig.mk 7 4) :=
  tuned_dispatch_never_invalid (TunedConfig.mk 8 2) (TunedConfig.mk 7 4)
    (by decide) (by decide) 3000000

/-! ## Claim theorems: two-channel SOA scan -/

lemma soaScan_scanl_channels (init : SoaTuple) (l : List SoaTuple) :
    (List.scanl SoaScanOp init l).map SoaTuple.t0 =
      List.scanl (fun a b => a + b) init.t0 (l.map SoaTuple.t0) ∧
    (List.scanl SoaScanOp init l).map SoaTuple.t1 =
      List.scanl (fun a b => a + b) init.t1 (l.map SoaTuple.t1) := by
  induction l generalizing init with
  | nil => simp
  | cons hd tl ih =>
    simp only [List.scanl_cons, List.map_cons, List.map_append, List.map]
    exact ⟨by rw [(ih (SoaScanOp init hd)).1]; rfl,
      by rw [(ih (SoaScanOp init hd)).2]; rfl⟩

/-- C8: the two-channel scan operator SoaScanOp is componentwise addition
over (coarse, fine) pairs with identity SoaTupleIdentity = (0, 0); it is
associative and commutative, each output channel depends only on the
matching input channels, and an exclusive scan of both channels jointly
(running sums from the identity) equals the two independent single-channel
scans — neither channel corrupts the partial sums of the other. -/
theorem soa_scan_op_channels :
    (∀ a b c : SoaTuple,
      SoaScanOp (SoaScanOp a b) c = SoaScanOp a (SoaScanOp b c)) ∧
    (∀ a b : SoaTuple, SoaScanOp a b = SoaScanOp b a) ∧
    SoaTupleIdentity = SoaTuple.mk 0 0 ∧
    (∀ a : SoaTuple,
      SoaScanOp SoaTupleIdentity a = a ∧ SoaScanOp a SoaTupleIdentity = a) ∧
    (∀ a b : SoaTuple,
      (SoaScanOp a b).t0 = a.t0 + b.t0 ∧ (SoaScanOp a b).t1 = a.t1 + b.t1) ∧
    (∀ l : List SoaTuple,
      (List.scanl SoaScanOp SoaTupleIdentity l).map SoaTuple.t0 =
        List.scanl (fun a b => a + b) 0 (l.map SoaTuple.t0) ∧
      (List.scanl SoaScanOp SoaTupleIdentity l).map SoaTuple.t1 =
        List.scanl (fun a b => a + b) 0 (l.map SoaTuple.t1)) := by
  refine ⟨?_, ?_, rfl, ?_, ?_, ?_⟩
  · intro a b c; unfold SoaScanOp; simp [Nat.add_assoc]
  · intro a b; unfold SoaScanOp; simp [Nat.add_comm]
  · intro a; cases a; unfold SoaScanOp SoaTupleIdentity; simp
  · intro a b; exact ⟨rfl, rfl⟩
  · intro l
    exact soaScan_scanl_channels SoaTupleIdentity l

/-! ## Claim theorems: atomic output-range reservation -/

lemma reserveRun_length (counts : Nat → Nat) :
    ∀ (order : List Nat) (ctr : Nat),
      (reserveRun counts order ctr).length = order.length := by
  intro order
  induction order with
  | nil => intro ctr; rfl
  | cons b rest ih => intro ctr; simp [reserveRun, ih]

lemma reserveRun_base_le (counts : Nat → Nat) :
    ∀ (order : List Nat) (ctr k : Nat), k < order.length →
      ctr ≤ ((reserveRun counts order ctr).getD k (0, 0)).2 := by
  intro order
  induction order with
  | nil => intro ctr k hk; simp at hk
  | cons b rest ih =>
    intro ctr k hk
    cases k with
    | zero => simp [reserveRun]
    | succ k =>
      simp only [reserveRun, List.getD_cons_succ]
      exact (Nat.le_add_right ctr (counts b)).trans
        (ih (ctr + counts b) k (by simpa using hk))

lemma reserveRun_base_mono (counts : Nat → Nat) :
    ∀ (order : List Nat) (ctr i j : Nat), i < j → j < order.length →
      ((reserveRun counts order ctr).getD i (0, 0)).2 +
          counts ((reserveRun counts order ctr).getD i (0, 0)).1 ≤
        ((reserveRun counts order ctr).getD j (0, 0)).2 := by
  intro order
  induction order with
  | nil => intro ctr i j hij hj; simp at hj
  | cons b rest ih =>
    intro ctr i j hij hj
    cases i with
    | zero =>
      obtain ⟨m, rfl⟩ : ∃ m, j = m + 1 := ⟨j - 1, by omega⟩
      simp only [reserveRun, List.getD_cons_zero, List.getD_cons_succ]
      exact reserveRun_base_le counts rest (ctr + counts b) m (by simpa using hj)
    | succ i =>
      obtain ⟨m, rfl⟩ : ∃ m, j = m + 1 := ⟨j - 1, by omega⟩
      simp only [reserveRun, List.getD_cons_succ]
      exact ih (ctr + counts b) i m (by omega) (by simpa using hj)

/-- C4: ReserveGlobalOffset is injective. With one atomic fetch-and-add of
each tile total per block per channel, atomicity serializes the updates in
some order; for every such order (every interleaving of the blocks), every
initial cursor value and every assignment of tile totals, the ranges
[base, base + count) returned to the fetch-and-adds at two distinct
positions of the serialization never share an element. -/
theorem reserve_global_offset_disjoint (counts : Nat → Nat)
    (order : List Nat) (ctr i j x : Nat)
    (hi : i < order.length) (hj : j < order.length) (hij : i ≠ j)
    (hx : ((reserveRun counts order ctr).getD i (0, 0)).2 ≤ x ∧
      x < ((reserveRun counts order ctr).getD i (0, 0)).2 +
        counts ((reserveRun counts order ctr).getD i (0, 0)).1) :
    ¬ (((reserveRun counts order ctr).getD j (0, 0)).2 ≤ x ∧
      x < ((reserveRun counts order ctr).getD j (0, 0)).2 +
        counts ((reserveRun counts order ctr).getD j (0, 0)).1) := by
  intro hy
  rcases Nat.lt_or_ge i j with h | h
  · have hm := reserveRun_base_mono counts order ctr i j h hj
    omega
  · have hlt : j < i := by omega
    have hm := reserveRun_base_mono counts order ctr j i hlt hi
    omega

/-- Witness for C4: two blocks with tile totals 2 and 3 serialize to the
ranges [0, 2) and [2, 5); element 1 of the first range is not in the
second. -/
theorem reserve_global_offset_disjoint_witness :
    ¬ (((reserveRun (fun b => b + 2) [0, 1] 0).getD 1 (0, 0)).2 ≤ 1 ∧
      1 < ((reserveRun (fun b => b + 2) [0, 1] 0).getD 1 (0, 0)).2 +
        (fun b => b + 2) ((reserveRun (fun b => b + 2) [0, 1] 0).getD 1 (0, 0)).1) :=
  reserve_global_offset_disjoint (fun b => b + 2) [0, 1] 0 0 1 1
    (by decide) (by decide) (by decide) (by decide)

/-! ## Claim theorems: work distribution (Plan) -/

lemma unitsBefore_zero (total grid g : Nat) : unitsBefore total grid g 0 = 0 := by
  simp [unitsBefore]

lemma unitsBefore_succ (total grid g i : Nat) :
    unitsBefore total grid g (i + 1) =
      unitsBefore total grid g i + unitsPerBlock total grid g i := by
  unfold unitsBefore unitsPerBlock
  rw [Nat.succ_mul]
  split <;> omega

lemma unitsBefore_mono (total grid g : Nat) {i j : Nat} (h : i ≤ j) :
    unitsBefore total grid g i ≤ unitsBefore total grid g j := by
  induction j with
  | zero => rw [Nat.le_zero.mp h]
  | succ j ih =>
    rcases Nat.lt_or_ge i (j + 1) with hlt | hge
    · exact (ih (by omega)).trans
        (by rw [unitsBefore_succ]; exact Nat.le_add_right _ _)
    · have : i = j + 1 := by omega
      subst this; exact Nat.le_refl _

lemma blockEdge_mono (total grid g : Nat) {i j : Nat} (h : i ≤ j) :
    blockEdge total grid g i ≤ blockEdge total grid g j := by
  unfold blockEdge
  have := Nat.mul_le_mul_right g (unitsBefore_mono total grid g h)
  omega

lemma blockEdge_zero (total grid g : Nat) : blockEdge total grid g 0 = 0 := by
  simp [blockEdge, unitsBefore_zero]

lemma blockEdge_le_total (total grid g i : Nat) :
    blockEdge total grid g i ≤ total := by
  unfold blockEdge; omega

lemma unitsBefore_grid (total grid g : Nat) (hgrid : 1 ≤ grid) :
    unitsBefore total grid g grid = totalUnits total g := by
  unfold unitsBefore
  have h2 : totalUnits total g % grid < grid :=
    Nat.mod_lt _ (by omega)
  have h1 : grid * (totalUnits total g / grid) + totalUnits total g % grid =
      totalUnits total g := Nat.div_add_mod _ _
  rw [min_eq_right h2.le]
  omega

lemma total_le_totalUnits_mul (total g : Nat) (hg : 1 ≤ g) :
    total ≤ totalUnits total g * g := by
  unfold totalUnits
  have h1 : ((total + g - 1) / g) * g + (total + g - 1) % g = total + g - 1 := by
    rw [Nat.mul_comm]; exact Nat.div_add_mod (total + g - 1) g
  have h2 := Nat.mod_lt (total + g - 1) (show 0 < g by omega)
  omega

lemma blockEdge_grid (total grid g : Nat) (hgrid : 1 ≤ grid) (hg : 1 ≤ g) :
    blockEdge total grid g grid = total := by
  unfold blockEdge
  rw [unitsBefore_grid total grid g hgrid]
  exact min_eq_right (total_le_totalUnits_mul total g hg)

lemma blockEdge_cover (total grid g : Nat) :
    ∀ n x : Nat, x < blockEdge total grid g n →
      ∃ i, i < n ∧ blockEdge total grid g i ≤ x ∧
        x < blockEdge total grid g (i + 1) := by
  intro n
  induction n with
  | zero => intro x hx; rw [blockEdge_zero] at hx; omega
  | succ n ih =>
    intro x hx
    rcases Nat.lt_or_ge x (blockEdge total grid g n) with h | h
    · obtain ⟨i, hi, h1, h2⟩ := ih x h
      exact ⟨i, by omega, h1, h2⟩
    · exact ⟨n, by omega, h, hx⟩

lemma planRange_offset (total grid g i : Nat) :
    (planRange total grid g i).offset = blockEdge total grid g i := rfl

lemma planRange_end (total grid g i : Nat) :
    (planRange total grid g i).offset + (planRange total grid g i).length =
      blockEdge total grid g (i + 1) := by
  have h := blockEdge_mono total grid g (show i ≤ i + 1 by omega)
  simp only [planRange]
  omega

lemma plan_getD (total grid g i : Nat) (hi : i < grid) :
    (Plan total grid g).getD i (WorkRange.mk 0 0 false) =
      planRange total grid g i := by
  unfold Plan
  rw [List.getD_eq_getElem _ _ (by simpa using hi)]
  simp

lemma guarded_iff (total grid g i : Nat) :
    (planRange total grid g i).guarded = true ↔
      (total ≤ unitsBefore total grid g (i + 1) * g ∧
        (i = 0 ∨ unitsBefore total grid g i * g < total)) := by
  simp [planRange]

lemma guarded_exists_unique (total grid g : Nat) (hgrid : 1 ≤ grid)
    (hg : 1 ≤ g) :
    ∃ i, i < grid ∧ (planRange total grid g i).guarded = true ∧
      ∀ j, j < grid → (planRange total grid g j).guarded = true → j = i := by
  have hPgrid : total ≤ unitsBefore total grid g (grid - 1 + 1) * g := by
    rw [show grid - 1 + 1 = grid by omega, unitsBefore_grid total grid g hgrid]
    exact total_le_totalUnits_mul total g hg
  have hex : ∃ i, total ≤ unitsBefore total grid g (i + 1) * g :=
    ⟨grid - 1, hPgrid⟩
  have hspec : total ≤ unitsBefore total grid g (Nat.find hex + 1) * g :=
    Nat.find_spec hex
  have hmin : ∀ k, k < Nat.find hex →
      ¬ total ≤ unitsBefore total grid g (k + 1) * g :=
    fun k hk => Nat.find_min hex hk
  have hi0le : Nat.find hex ≤ grid - 1 := Nat.find_min' hex hPgrid
  refine ⟨Nat.find hex, by omega, ?_, ?_⟩
  · rw [guarded_iff]
    refine ⟨hspec, ?_⟩
    rcases Nat.eq_zero_or_pos (Nat.find hex) with h0 | hpos
    · exact Or.inl h0
    · refine Or.inr ?_
      have hprev := hmin (Nat.find hex - 1) (by omega)
      rw [show Nat.find hex - 1 + 1 = Nat.find hex by omega] at hprev
      omega
  · intro j hj hgj
    rw [guarded_iff] at hgj
    by_contra hne
    rcases Nat.lt_or_ge j (Nat.find hex) with hlt | hge
    · exact hmin j hlt hgj.1
    · have hj0 : unitsBefore total grid g j * g < total := by
        rcases hgj.2 with h0 | h
        · omega
        · exact h
      have hmono : unitsBefore total grid g (Nat.find hex + 1) ≤
          unitsBefore total grid g j :=
        unitsBefore_mono total grid g (by omega)
      have := Nat.mul_le_mul_right g hmono
      omega

/-- C1: for every total, every grid size at least 1 and every granularity,
Plan returns grid_size WorkRanges (entry i being planRange i) that are
order-preserving (offsets nondecreasing), pairwise disjoint, and whose
union is exactly the interval from 0 to total; the numbers of
schedule-granularity units assigned to any two blocks differ by at most
one, surplus units go to the lowest-indexed blocks, and exactly one block
— the one holding the tail — is marked guarded. -/
theorem plan_work_distribution (total grid g : Nat) (hgrid : 1 ≤ grid)
    (hg : 1 ≤ g) :
    (Plan total grid g).length = grid ∧
    (∀ i, i < grid → (Plan total grid g).getD i (WorkRange.mk 0 0 false) =
      planRange total grid g i) ∧
    (∀ i j, i ≤ j → (planRange total grid g i).offset ≤
      (planRange total grid g j).offset) ∧
    (∀ i j, i < grid → j < grid → i ≠ j → ∀ x,
      ((planRange total grid g i).offset ≤ x ∧
        x < (planRange total grid g i).offset +
          (planRange total grid g i).length) →
      ¬ ((planRange total grid g j).offset ≤ x ∧
        x < (planRange total grid g j).offset +
          (planRange total grid g j).length)) ∧
    (∀ x, x < total ↔ ∃ i, i < grid ∧
      (planRange total grid g i).offset ≤ x ∧
      x < (planRange total grid g i).offset +
        (planRange total grid g i).length) ∧
    (∀ i j, unitsPerBlock total grid g i ≤ unitsPerBlock total grid g j + 1) ∧
    (∀ i j, i ≤ j →
      unitsPerBlock total grid g j ≤ unitsPerBlock total grid g i) ∧
    (∃ i, i < grid ∧ (planRange total grid g i).guarded = true ∧
      ∀ j, j < grid → (planRange total grid g j).guarded = true → j = i) := by
  refine ⟨?_, ?_, ?_, ?_, ?_, ?_, ?_, ?_⟩
  · simp [Plan]
  · intro i hi; exact plan_getD total grid g i hi
  · intro i j hij
    rw [planRange_offset, planRange_offset]
    exact blockEdge_mono total grid g hij
  · intro i j hi hj hij x hx
    intro hy
    rw [planRange_end] at hx hy
    rw [planRange_offset] at hx hy
    rcases Nat.lt_or_ge i j with h | h
    · have h1 : blockEdge total grid g (i + 1) ≤ blockEdge total grid g j :=
        blockEdge_mono total grid g (by omega)
      omega
    · have hji : j < i := by omega
      have h1 : blockEdge total grid g (j + 1) ≤ blockEdge total grid g i :=
        blockEdge_mono total grid g (by omega)
      omega
  · intro x
    constructor
    · intro hx
      have hx2 : x < blockEdge total grid g grid := by
        rw [blockEdge_grid total grid g hgrid hg]; exact hx
      obtain ⟨i, hi, h1, h2⟩ := blockEdge_cover total grid g grid x hx2
      refine ⟨i, hi, ?_, ?_⟩
      · rw [planRange_offset]; exact h1
      · rw [planRange_end]; exact h2
    · intro ⟨i, _, _, h2⟩
      rw [planRange_end] at h2
      exact h2.trans_le (blockEdge_le_total total grid g (i + 1))
  · intro i j
    unfold unitsPerBlock
    split <;> split <;> omega
  · intro i j hij
    unfold unitsPerBlock
    split <;> split <;> omega
  · exact guarded_exists_unique total grid g hgrid hg

/-- Witness for C1: distributing 10 elements across 3 blocks at
granularity 4 yields the ranges [0, 4), [4, 8), [8, 10), the last block
guarded. -/
theorem plan_work_distribution_witness :
    (Plan 10 3 4).length = 3 ∧
    (∀ i, i < 3 → (Plan 10 3 4).getD i (WorkRange.mk 0 0 false) =
      planRange 10 3 4 i) ∧
    (∀ i j, i ≤ j → (planRange 10 3 4 i).offset ≤
      (planRange 10 3 4 j).offset) ∧
    (∀ i j, i < 3 → j < 3 → i ≠ j → ∀ x,
      ((planRange 10 3 4 i).offset ≤ x ∧
        x < (planRange 10 3 4 i).offset + (planRange 10 3 4 i).length) →
      ¬ ((planRange 10 3 4 j).offset ≤ x ∧
        x < (planRange 10 3 4 j).offset + (planRange 10 3 4 j).length)) ∧
    (∀ x, x < 10 ↔ ∃ i, i < 3 ∧
      (planRange 10 3 4 i).offset ≤ x ∧
      x < (planRange 10 3 4 i).offset + (planRange 10 3 4 i).length) ∧
    (∀ i j, unitsPerBlock 10 3 4 i ≤ unitsPerBlock 10 3 4 j + 1) ∧
    (∀ i j, i ≤ j → unitsPerBlock 10 3 4 j ≤ unitsPerBlock 10 3 4 i) ∧
    (∃ i, i < 3 ∧ (planRange 10 3 4 i).guarded = true ∧
      ∀ j, j < 3 → (planRange 10 3 4 j).guarded = true → j = i) :=
  plan_work_distribution 10 3 4 (by decide) (by decide)

end B40C
